import Mathlib

/-!
Verification of the observability-mcp server core: the time-series history
store, trend analyzer, alert engine, report generator and interaction
analyzer, shallowly embedded from `src/observability_mcp/server.py`.

Conventions of the embedding:
* Python floats (metric values, timestamps) are modelled as rationals;
  timestamps are seconds since the epoch, so `datetime.now() - timedelta(days=d)`
  becomes `now - d * 86400` and ISO round-trips through storage are identity.
* Python dicts written and read with a fixed key set become structures; where
  the code performs a *dynamic* string-keyed lookup on such a dict (pydantic
  `.dict()` output), an explicit key-lookup view returning `Option` models the
  possibility of a `KeyError`.
* The persistent storage is modelled as association lists keyed by service
  name, one per key prefix (`health_history:`, `performance_history:`,
  `trace_history:`), mirroring the prefix+service addressing of the code.
* The outbound HTTP probe and the wall clock are external collaborators and
  enter the embedding as explicit parameters.
-/

namespace ObservabilityMcp

/-- Python `l[-n:]`: the suffix of the last `n` elements (all of `l` if
`l.length ≤ n`). -/
def lastN (n : Nat) (l : List α) : List α :=
  l.drop (l.length - n)

/-- The history update pattern shared by every tool: `history.append(sample)`
followed by `history = history[-cap:]` before writing back. -/
def appendCapped (cap : Nat) (history : List α) (s : α) : List α :=
  lastN cap (history ++ [s])

/-- `history = history[-100:]` in `monitor_server_health`. -/
def healthRetentionCap : Nat := 100

/-- `history = history[-1000:]` in `collect_performance_metrics`. -/
def performanceRetentionCap : Nat := 1000

/-- `history = history[-500:]` in `trace_mcp_calls`. -/
def traceRetentionCap : Nat := 500

/-- `history = history[-100:]` in `monitor_system_resources`. -/
def systemStatusRetentionCap : Nat := 100

/-- The four kind-specific retention caps. -/
def retentionCaps : List Nat :=
  [healthRetentionCap, performanceRetentionCap, traceRetentionCap,
   systemStatusRetentionCap]

theorem lastN_length (n : Nat) (l : List α) :
    (lastN n l).length = min n l.length := by
  simp only [lastN, List.length_drop]
  omega

theorem appendCapped_length (cap : Nat) (history : List α) (s : α) :
    (appendCapped cap history s).length = min cap (history.length + 1) := by
  simp [appendCapped, lastN_length]

/-- Claim C1: for every history kind, appending a sample through the shared
capped-append pattern never lets the stored sequence exceed the kind-specific
retention cap (100 for health and system-status, 1000 for performance, 500 for
trace); appending to a history already at cap `N` leaves exactly `N` entries,
with the oldest entry evicted and all newer entries retained in order. -/
theorem retention_cap_fifo {α : Type} (cap : Nat) (hcap : cap ∈ retentionCaps)
    (history : List α) (s : α) :
    (appendCapped cap history s).length ≤ cap ∧
    (history.length = cap →
      appendCapped cap history s = history.drop 1 ++ [s] ∧
      (appendCapped cap history s).length = cap) := by
  have hpos : 1 ≤ cap := by
    have hall : ∀ c ∈ retentionCaps, 1 ≤ c := by decide
    exact hall cap hcap
  refine ⟨by rw [appendCapped_length]; exact Nat.min_le_left _ _, fun hfull => ?_⟩
  constructor
  · have hdrop : history.length + 1 - cap = 1 := by omega
    calc appendCapped cap history s
        = (history ++ [s]).drop (history.length + 1 - cap) := by
          simp [appendCapped, lastN]
      _ = (history ++ [s]).drop 1 := by rw [hdrop]
      _ = history.drop 1 ++ [s] := by
          rw [List.drop_append_of_le_length (by omega)]
  · rw [appendCapped_length]; omega

/-- Concrete instance of C1: appending to a health history already holding 100
entries keeps exactly 100 entries, drops the oldest and keeps the new sample
at the back. -/
theorem retention_cap_fifo_witness :
    (appendCapped 100 (List.replicate 100 (0 : Nat)) 7).length ≤ 100 ∧
    ((List.replicate 100 (0 : Nat)).length = 100 →
      appendCapped 100 (List.replicate 100 (0 : Nat)) 7 =
        (List.replicate 100 (0 : Nat)).drop 1 ++ [7] ∧
      (appendCapped 100 (List.replicate 100 (0 : Nat)) 7).length = 100) :=
  retention_cap_fifo 100 (by decide) (List.replicate 100 0) 7

/-! ## Health prober (`monitor_server_health`) -/

/-- The success-branch `details` dict: status code, response headers and body
length of the probed endpoint. -/
structure ProbeDetails where
  status_code : Nat
  headers : List (String × String)
  content_length : Nat
deriving DecidableEq

/-- The `HealthCheckResult` pydantic model. `details` is `none` on the
exception branch, which leaves the field at its empty default. -/
structure HealthCheckResult where
  service_name : String
  status : String
  response_time_ms : ℚ
  timestamp : ℚ
  details : Option ProbeDetails := none
  error_message : Option String := none
deriving DecidableEq

/-- Outcome of the outbound HTTP probe, an external collaborator: either an
HTTP response or a raised exception (transport failure, timeout, unreachable
address) carrying `str(e)`. -/
inductive ProbeOutcome where
  | response (statusCode : Nat) (headers : List (String × String))
      (contentLength : Nat)
  | failure (message : String)
deriving DecidableEq

/-- The `try`/`except` body of `monitor_server_health`: builds the
`HealthCheckResult` from the probe outcome and the two wall-clock reads
(`start_time`, the read inside the branch) taken around the probe. -/
def probeResult (serviceUrl : String) (expectedStatusCodes : List Nat)
    (tStart tEnd now : ℚ) (outcome : ProbeOutcome) : HealthCheckResult :=
  match outcome with
  | .response code hdrs clen =>
      { service_name := serviceUrl
        status := if expectedStatusCodes.contains code then "healthy" else "unhealthy"
        response_time_ms := (tEnd - tStart) * 1000
        timestamp := now
        details := some { status_code := code, headers := hdrs, content_length := clen } }
  | .failure msg =>
      { service_name := serviceUrl
        status := "unhealthy"
        response_time_ms := (tEnd - tStart) * 1000
        timestamp := now
        error_message := some msg }

/-- `_generate_health_recommendations`. -/
def generateHealthRecommendations (r : HealthCheckResult) : List String :=
  (if r.status ≠ "healthy"
    then ["Service is currently unhealthy - investigate immediately"] else []) ++
  (if r.response_time_ms > 1000
    then ["Response time is high (>1s) - consider optimization"] else []) ++
  (match r.error_message with
   | some e => ["Address the error: " ++ e]
   | none => [])

/-- The structured return value of the `monitor_server_health` tool. -/
structure HealthToolResult where
  health_check : HealthCheckResult
  metrics_recorded : Bool
  historical_checks : Nat
  recommendations : List String
deriving DecidableEq

/-- `monitor_server_health`: defaults `expected_status_codes` to `[200]`,
classifies the probe outcome, appends the result to the capped per-service
health history and returns the tool payload together with the new history. -/
def monitorServerHealth (serviceUrl : String)
    (expectedStatusCodes : Option (List Nat)) (tStart tEnd now : ℚ)
    (outcome : ProbeOutcome) (priorHistory : List HealthCheckResult) :
    HealthToolResult × List HealthCheckResult :=
  let expected := expectedStatusCodes.getD [200]
  let result := probeResult serviceUrl expected tStart tEnd now outcome
  let history := appendCapped healthRetentionCap priorHistory result
  ({ health_check := result
     metrics_recorded := true
     historical_checks := history.length
     recommendations := generateHealthRecommendations result }, history)

/-- Claim C2: whenever the outbound probe raises (any exception message, any
input), `monitor_server_health` still returns a result: its status is
"unhealthy", its error message is the exception message verbatim, and —
provided the second wall-clock read is not before the first — the recorded
response time is nonnegative. -/
theorem probe_failure_unhealthy (serviceUrl : String)
    (expectedStatusCodes : Option (List Nat)) (tStart tEnd now : ℚ)
    (msg : String) (priorHistory : List HealthCheckResult)
    (hclock : tStart ≤ tEnd) :
    ((monitorServerHealth serviceUrl expectedStatusCodes tStart tEnd now
        (.failure msg) priorHistory).1.health_check.status = "unhealthy") ∧
    ((monitorServerHealth serviceUrl expectedStatusCodes tStart tEnd now
        (.failure msg) priorHistory).1.health_check.error_message = some msg) ∧
    (0 ≤ (monitorServerHealth serviceUrl expectedStatusCodes tStart tEnd now
        (.failure msg) priorHistory).1.health_check.response_time_ms) := by
  refine ⟨rfl, rfl, ?_⟩
  show (0 : ℚ) ≤ (tEnd - tStart) * 1000
  have h1 : (0 : ℚ) ≤ tEnd - tStart := by linarith
  have h2 : (0 : ℚ) ≤ 1000 := by norm_num
  exact mul_nonneg h1 h2

/-- Concrete instance of C2: a probe of an unreachable address that raises
after half a second yields an unhealthy result carrying the exception message
and a nonnegative response time. -/
theorem probe_failure_unhealthy_witness :
    ((monitorServerHealth ("http://unreachable.invalid") none 0 (1/2) 5
        (.failure ("Connection failed")) []).1.health_check.status = "unhealthy") ∧
    ((monitorServerHealth ("http://unreachable.invalid") none 0 (1/2) 5
        (.failure ("Connection failed")) []).1.health_check.error_message =
      some ("Connection failed")) ∧
    (0 ≤ (monitorServerHealth ("http://unreachable.invalid") none 0 (1/2) 5
        (.failure ("Connection failed")) []).1.health_check.response_time_ms) :=
  probe_failure_unhealthy ("http://unreachable.invalid") none 0 (1/2) 5
    ("Connection failed") [] (by norm_num)

/-! ## Trend analyzer (`_analyze_performance_trends`) -/

/-- The fields of a stored `PerformanceMetrics` record that the trend analyzer
and the alert/report paths read. -/
structure PerfSample where
  cpu_percent : ℚ
  memory_mb : ℚ
  timestamp : ℚ
deriving DecidableEq

/-- Return value of `_analyze_performance_trends`: either the
`{"insufficient_data": True}` dict or the four-field trend dict. -/
inductive TrendAnalysis where
  | insufficientData
  | trends (cpu_trend : String) (memory_trend : String)
      (avg_cpu_percent : ℚ) (avg_memory_mb : ℚ)
deriving DecidableEq

/-- Mean of `cpu_percent` over the `history[-10:]` window. -/
def cpuWindowMean (history : List PerfSample) : ℚ :=
  ((lastN 10 history).map PerfSample.cpu_percent).sum / ((lastN 10 history).length : ℚ)

/-- Mean of `memory_mb` over the `history[-10:]` window. -/
def memWindowMean (history : List PerfSample) : ℚ :=
  ((lastN 10 history).map PerfSample.memory_mb).sum / ((lastN 10 history).length : ℚ)

/-- `_analyze_performance_trends`: fewer than 2 samples reports insufficient
data; otherwise the last 10 samples are averaged and each metric is
"increasing" exactly when the most recent sample strictly exceeds the window
mean, else "stable". The `.getLast?` `none` arm is unreachable on the
≥ 2 path and mirrors Python `recent[-1]`. -/
def analyzePerformanceTrends (history : List PerfSample) : TrendAnalysis :=
  if history.length < 2 then .insufficientData
  else
    match (lastN 10 history).getLast? with
    | none => .insufficientData
    | some latest =>
        .trends
          (if latest.cpu_percent > cpuWindowMean history then "increasing" else "stable")
          (if latest.memory_mb > memWindowMean history then "increasing" else "stable")
          (cpuWindowMean history) (memWindowMean history)

theorem lastN_ne_nil (n : Nat) (l : List α) (hn : 1 ≤ n) (hl : l ≠ []) :
    lastN n l ≠ [] := by
  have hlen : (lastN n l).length = min n l.length := lastN_length n l
  intro hnil
  rw [hnil] at hlen
  have : 0 < l.length := List.length_pos.mpr hl
  simp at hlen
  omega

theorem lastN_getLast? (n : Nat) (l : List α) (hn : 1 ≤ n) (hl : l ≠ []) :
    (lastN n l).getLast? = l.getLast? := by
  conv_rhs => rw [← List.take_append_drop (l.length - n) l]
  rw [List.getLast?_append_of_ne_nil]
  · rfl
  · exact lastN_ne_nil n l hn hl

/-- Claim C3: trend analysis over a performance history. With fewer than 2
samples it reports insufficient data and computes no trend. With 2 or more
samples it averages cpu and memory over the last-10 window and classifies each
metric as "increasing" exactly when the latest sample strictly exceeds the
window mean, else "stable"; in particular a latest cpu value equal to the
window mean yields the cpu trend "stable". -/
theorem trend_analysis_spec (history : List PerfSample) :
    (history.length < 2 → analyzePerformanceTrends history = .insufficientData) ∧
    (∀ latest : PerfSample, 2 ≤ history.length → history.getLast? = some latest →
      analyzePerformanceTrends history =
        .trends
          (if latest.cpu_percent > cpuWindowMean history then "increasing" else "stable")
          (if latest.memory_mb > memWindowMean history then "increasing" else "stable")
          (cpuWindowMean history) (memWindowMean history) ∧
      (latest.cpu_percent = cpuWindowMean history →
        ∃ memTrend : String, analyzePerformanceTrends history =
          .trends "stable" memTrend (cpuWindowMean history) (memWindowMean history))) := by
  constructor
  · intro hlt
    simp [analyzePerformanceTrends, hlt]
  · intro latest hge hlast
    have hne : history ≠ [] := by
      intro h
      rw [h] at hge
      simp at hge
    have hwin : (lastN 10 history).getLast? = some latest := by
      rw [lastN_getLast? 10 history (by omega) hne, hlast]
    have heq : analyzePerformanceTrends history =
        .trends
          (if latest.cpu_percent > cpuWindowMean history then "increasing" else "stable")
          (if latest.memory_mb > memWindowMean history then "increasing" else "stable")
          (cpuWindowMean history) (memWindowMean history) := by
      unfold analyzePerformanceTrends
      rw [if_neg (by omega), hwin]
    refine ⟨heq, fun hstable => ?_⟩
    refine ⟨if latest.memory_mb > memWindowMean history then "increasing" else "stable", ?_⟩
    rw [heq, if_neg]
    rw [hstable]
    exact lt_irrefl _

/-- Concrete instance of C3: on the two-sample history
`[(cpu 50, mem 200), (cpu 60, mem 100)]` the window means are 55 and 150, so
cpu (60 > 55) is increasing and memory (100 < 150) is stable. -/
theorem trend_analysis_spec_witness :
    analyzePerformanceTrends
      [{ cpu_percent := 50, memory_mb := 200, timestamp := 0 },
       { cpu_percent := 60, memory_mb := 100, timestamp := 1 }] =
      .trends "increasing" "stable" 55 150 := by
  have h := (trend_analysis_spec
      [{ cpu_percent := 50, memory_mb := 200, timestamp := 0 },
       { cpu_percent := 60, memory_mb := 100, timestamp := 1 }]).2
    { cpu_percent := 60, memory_mb := 100, timestamp := 1 } (by decide) rfl
  rw [h.1]
  norm_num [cpuWindowMean, memWindowMean, lastN]

/-! ## Trace recording (`trace_mcp_calls`) and the stored trace dict shape -/

/-- The `TraceInfo` pydantic model as stored by `trace_mcp_calls`. Attribute
values are kept as strings; the claims never inspect them. -/
structure TraceInfo where
  trace_id : String
  service_name : String
  operation : String
  start_time : ℚ
  duration_ms : ℚ
  status : String
  attributes : List (String × String) := []
deriving DecidableEq

/-- A value held in the dict produced by `TraceInfo.dict()`. -/
inductive TraceField where
  | str (s : String)
  | num (q : ℚ)
  | attrs (l : List (String × String))
deriving DecidableEq

/-- Dynamic string-keyed access to the stored trace dict, `trace[key]` /
`trace.get(key)`. The key set is exactly the `TraceInfo` field names — in
particular there is no "timestamp" key, only "start_time". -/
def TraceInfo.dictGet (t : TraceInfo) (key : String) : Option TraceField :=
  if key = "trace_id" then some (.str t.trace_id)
  else if key = "service_name" then some (.str t.service_name)
  else if key = "operation" then some (.str t.operation)
  else if key = "start_time" then some (.num t.start_time)
  else if key = "duration_ms" then some (.num t.duration_ms)
  else if key = "status" then some (.str t.status)
  else if key = "attributes" then some (.attrs t.attributes)
  else none

/-- `trace_mcp_calls`: builds the trace record (status hard-wired to
"completed", start time taken from the clock) and appends it to the capped
per-service trace history; returns the record and the new history. The trace
id comes from the OpenTelemetry span context, an external collaborator. -/
def traceMcpCalls (traceId : String) (operationName : String)
    (serviceName : String) (durationMs : ℚ)
    (attributes : Option (List (String × String))) (now : ℚ)
    (priorHistory : List TraceInfo) : TraceInfo × List TraceInfo :=
  let t : TraceInfo :=
    { trace_id := traceId
      service_name := serviceName
      operation := operationName
      start_time := now
      duration_ms := durationMs
      status := "completed"
      attributes := attributes.getD [] }
  (t, appendCapped traceRetentionCap priorHistory t)

/-! ## Persistent storage model -/

/-- The persistent store, split by key prefix: `health_history:<service>`,
`performance_history:<service>`, `trace_history:<service>` and the
`alert_configs` key. Service names are the assoc-list keys. -/
structure AlertConfig where
  metric_name : String
  threshold : ℚ
  operator : String
  severity : String
  enabled : Bool := true
deriving DecidableEq

/-- The `AnomalyResult` pydantic model. -/
structure AnomalyResult where
  metric_name : String
  detected_at : ℚ
  severity : String
  description : String
  current_value : ℚ
  threshold_value : ℚ
  historical_average : ℚ
deriving DecidableEq

/-- An entry of the `active_alerts` list (a plain dict in the code; never
actually constructed by it). -/
structure ActiveAlert where
  fields : List (String × String)
deriving DecidableEq

structure Store where
  healthHistory : List (String × List HealthCheckResult) := []
  performanceHistory : List (String × List PerfSample) := []
  traceHistory : List (String × List TraceInfo) := []
  alertConfigs : List AlertConfig := []
deriving DecidableEq

/-- `await ctx.storage.get(key, [])` on a prefixed history key. -/
def lookupHistory (assoc : List (String × List β)) (service : String) :
    List β :=
  (assoc.lookup service).getD []

/-! ## Alert / anomaly engine (`alert_on_anomalies`) -/

/-- `_detect_service_anomalies` — the body is `return []`: no rule is ever
evaluated, no operator inspected, no anomaly emitted. -/
def detectServiceAnomalies (service : String) (history : List PerfSample)
    (configs : List AlertConfig) : List AnomalyResult :=
  []

/-- `_check_active_alerts` — the body is `return []`. -/
def checkActiveAlerts (service : String) (history : List PerfSample)
    (configs : List AlertConfig) : List ActiveAlert :=
  []

/-- `_generate_alert_recommendations`. -/
def generateAlertRecommendations (alerts : List ActiveAlert)
    (anomalies : List AnomalyResult) : List String :=
  ["Review alert configurations", "Set up notification channels"]

/-- The structured return value of the `alert_on_anomalies` tool. Note the
shape: it has no error field of any kind. -/
structure AlertToolResult where
  active_alerts : List ActiveAlert
  detected_anomalies : List AnomalyResult
  alert_configs : List AlertConfig
  recommendations : List String
deriving DecidableEq

/-- The per-service loop body of `alert_on_anomalies`. -/
def alertServiceStep (configs : List AlertConfig) (store : Store)
    (acc : List AnomalyResult × List ActiveAlert) (svc : String) :
    List AnomalyResult × List ActiveAlert :=
  let history := lookupHistory store.performanceHistory svc
  if history.isEmpty then acc
  else
    (acc.1 ++ detectServiceAnomalies svc history configs,
     acc.2 ++ checkActiveAlerts svc history configs)

/-- `alert_on_anomalies`: loads the rule set, picks the services to check
(the given one, or every service with a performance history), accumulates the
detector and active-alert outputs over them and returns the tool payload. -/
def alertOnAnomalies (serviceName : Option String) (store : Store) :
    AlertToolResult :=
  let configs := store.alertConfigs
  let services := match serviceName with
    | some s => [s]
    | none => store.performanceHistory.map Prod.fst
  let pair := services.foldl (alertServiceStep configs store) ([], [])
  { active_alerts := pair.2
    detected_anomalies := pair.1
    alert_configs := configs
    recommendations := generateAlertRecommendations pair.2 pair.1 }

/-- The default rule set installed by the server lifespan. -/
def defaultAlertConfigs : List AlertConfig :=
  [{ metric_name := "cpu_percent", threshold := 90, operator := "gt", severity := "warning" },
   { metric_name := "memory_mb", threshold := 1000, operator := "gt", severity := "error" },
   { metric_name := "error_rate", threshold := 0.05, operator := "gt", severity := "error" }]

/-- Store for the C4 scenario: an enabled `cpu_percent gt 90` rule and a
service whose latest performance sample has `cpu_percent = 95`. -/
def alertScenarioStore : Store :=
  { performanceHistory :=
      [("svc", [{ cpu_percent := 95, memory_mb := 500, timestamp := 0 }])]
    alertConfigs :=
      [{ metric_name := "cpu_percent", threshold := 90, operator := "gt",
         severity := "warning" }] }

/-- Claim C4 is violated by the code: with an enabled `gt`/90 rule and a
latest sample value of 95, `alert_on_anomalies` emits zero `AnomalyResult`s
(the detector is a stub returning the empty list), not exactly one; a second
identical evaluation likewise emits none, and no (service, metric) alerting
state exists anywhere in the code. -/
theorem alert_engine_stub_emits_nothing :
    (alertOnAnomalies (some ("svc")) alertScenarioStore).detected_anomalies = [] ∧
    (alertOnAnomalies (some ("svc")) alertScenarioStore).active_alerts = [] ∧
    (alertOnAnomalies (some ("svc")) alertScenarioStore).alert_configs =
      [{ metric_name := "cpu_percent", threshold := 90, operator := "gt",
         severity := "warning" }] := by
  refine ⟨rfl, rfl, rfl⟩

/-- Claim C5 is violated by the code: for every rule set — in particular one
whose only rule carries an operator outside {gt, lt, eq, ne} — and every
store and service selection, `alert_on_anomalies` reports no configuration
error (its result type has no error field) and completes with empty anomaly
and alert lists: the malformed rule is silently skipped, exactly what the
claim forbids. -/
theorem unknown_operator_silently_skipped (serviceName : Option String)
    (store : Store) :
    (alertOnAnomalies serviceName store).detected_anomalies = [] ∧
    (alertOnAnomalies serviceName store).active_alerts = [] ∧
    (alertOnAnomalies serviceName store).recommendations =
      ["Review alert configurations", "Set up notification channels"] := by
  have hfold : ∀ (services : List String),
      services.foldl (alertServiceStep store.alertConfigs store) ([], []) =
        (([] : List AnomalyResult), ([] : List ActiveAlert)) := by
    intro services
    have hstep : ∀ (acc : List AnomalyResult × List ActiveAlert) (svc : String),
        alertServiceStep store.alertConfigs store acc svc = acc := by
      intro acc svc
      unfold alertServiceStep detectServiceAnomalies checkActiveAlerts
      by_cases h : (lookupHistory store.performanceHistory svc).isEmpty <;>
        simp [h]
    induction services with
    | nil => rfl
    | cons s rest ih =>
        rw [List.foldl_cons, hstep]
        exact ih
  unfold alertOnAnomalies
  rcases serviceName with _ | s <;>
    simp [hfold, generateAlertRecommendations]

/-! ## Report generator (`generate_performance_reports`) -/

/-- Seconds in a day: `timedelta(days=d)` becomes `d * 86400`. -/
def secondsPerDay : ℚ := 86400

/-- `_generate_performance_summary` on one nonempty service history. -/
structure PerfSummary where
  total_measurements : Nat
  avg_cpu : ℚ
  avg_memory : ℚ
  time_range : ℚ × ℚ
deriving DecidableEq

def generatePerformanceSummary (history : List PerfSample) : PerfSummary :=
  { total_measurements := history.length
    avg_cpu := (history.map PerfSample.cpu_percent).sum / (history.length : ℚ)
    avg_memory := (history.map PerfSample.memory_mb).sum / (history.length : ℚ)
    time_range := ((history.head?.map PerfSample.timestamp).getD 0,
                   (history.getLast?.map PerfSample.timestamp).getD 0) }

/-- The summary block: one service, or one summary per service. -/
inductive ReportSummary where
  | single (s : PerfSummary)
  | multi (per : List (String × PerfSummary))
deriving DecidableEq

/-- `_analyze_performance_trends_detailed` — a hardcoded placeholder dict. -/
def analyzePerformanceTrendsDetailed : List (String × String) :=
  [("detailed_analysis", "Implemented in full version")]

/-- `_detect_performance_anomalies` — the body is `return []`. -/
def detectPerformanceAnomalies : List AnomalyResult :=
  []

/-- `_generate_performance_recommendations_from_history`. -/
def performanceRecommendationsFromHistory : List String :=
  ["Monitor trends regularly", "Set up alerting for critical metrics"]

structure PerfReport where
  period_days : Nat
  generated_at : ℚ
  summary : ReportSummary
  trends : List (String × String)
  anomalies : List AnomalyResult
  recommendations : List String
deriving DecidableEq

/-- Return value of `generate_performance_reports`: the
`{"error": "No performance data available for the specified period"}` dict, or
the report bundle. -/
inductive ReportOutcome where
  | noData (error : String)
  | success (report : PerfReport)
deriving DecidableEq

/-- `generate_performance_reports`: selects the samples newer than
`now - days` for the given service (or per service across the store), returns
the structured no-data error when the selection is empty, and otherwise the
report bundle. -/
def generatePerformanceReports (serviceName : Option String) (days : Nat)
    (now : ℚ) (store : Store) : ReportOutcome :=
  let cutoff := now - days * secondsPerDay
  let mkReport : ReportSummary → PerfReport := fun summary =>
    { period_days := days
      generated_at := now
      summary := summary
      trends := analyzePerformanceTrendsDetailed
      anomalies := detectPerformanceAnomalies
      recommendations := performanceRecommendationsFromHistory }
  match serviceName with
  | some svc =>
      let history := lookupHistory store.performanceHistory svc
      let recent := history.filter (fun s => cutoff < s.timestamp)
      if recent.isEmpty then
        .noData "No performance data available for the specified period"
      else
        .success (mkReport (.single (generatePerformanceSummary recent)))
  | none =>
      let allHistory :=
        (store.performanceHistory.map
          (fun p => (p.1, p.2.filter (fun s => cutoff < s.timestamp)))).filter
          (fun p => ¬ p.2.isEmpty)
      if allHistory.isEmpty then
        .noData "No performance data available for the specified period"
      else
        .success (mkReport
          (.multi (allHistory.map (fun p => (p.1, generatePerformanceSummary p.2)))))

/-! ## Peak-hour computation (`_find_peak_usage_hours`)

The Python builds `hours = {}` in first-seen order, then
`sorted(hours.keys(), key=lambda x: hours[x], reverse=True)[:3]`. Python's
sort is stable and `reverse=True` keeps equal keys in their original —
first-seen — order, so ties are broken by first appearance, not by hour
value. -/

/-- `hours[hour] = hours.get(hour, 0) + 1`: bump the count of `h` in the
insertion-ordered tally, appending a fresh entry for a first sighting. -/
def bump : List (Nat × Nat) → Nat → List (Nat × Nat)
  | [], h => [(h, 1)]
  | (k, c) :: rest, h =>
      if k = h then (k, c + 1) :: rest else (k, c) :: bump rest h

/-- The hour-count dict in key-insertion (first-seen) order. -/
def tallyHours (hs : List Nat) : List (Nat × Nat) :=
  hs.foldl bump []

/-- One step of a stable descending-by-count insertion sort: `p` goes in
front of the first entry whose count does not exceed it, so entries it ties
with — which come earlier in first-seen order — stay in front. -/
def insertByCountDesc (p : Nat × Nat) : List (Nat × Nat) → List (Nat × Nat)
  | [] => [p]
  | q :: rest => if p.2 < q.2 then q :: insertByCountDesc p rest else p :: q :: rest

/-- `sorted(keys, key=count, reverse=True)`: stable descending sort of the
tally. -/
def sortByCountDesc (l : List (Nat × Nat)) : List (Nat × Nat) :=
  l.foldr insertByCountDesc []

/-- `datetime.fromisoformat(ts).hour` on an epoch-seconds timestamp. -/
def hourOf (ts : ℚ) : Nat :=
  (Int.toNat ⌊ts / 3600⌋) % 24

/-- `_find_peak_usage_hours` on the records' timestamps: tally the hours of
day in first-seen order, stably sort by count descending, keep three. -/
def findPeakUsageHours (timestamps : List ℚ) : List Nat :=
  ((sortByCountDesc (tallyHours (timestamps.map hourOf))).map Prod.fst).take 3

/-! ## Interaction pattern analyzer (`analyze_mcp_interactions`) -/

/-- The list comprehension
`[trace for trace in traces if datetime.fromisoformat(trace["timestamp"]) > cutoff_date]`
over stored trace dicts. The subscript is a dynamic dict access: a missing
"timestamp" key raises `KeyError`, modelled as the error branch. Stored trace
dicts carry the field under the key "start_time", so the access fails on the
very first record of any nonempty history. -/
def filterRecentTraces (cutoff : ℚ) : List TraceInfo → Except String (List TraceInfo)
  | [] => .ok []
  | t :: rest =>
      match t.dictGet "timestamp" with
      | some (.num ts) =>
          match filterRecentTraces cutoff rest with
          | .error e => .error e
          | .ok tail => .ok (if cutoff < ts then t :: tail else tail)
      | some _ => .error "TypeError: fromisoformat"
      | none => .error "KeyError: timestamp"

/-- A per-service entry of `service_stats`. -/
structure ServiceStats where
  total_calls : Nat
  avg_duration : ℚ
  error_rate : ℚ
deriving DecidableEq

/-- The `service_stats[service_name] = {...}` entry: call count, mean
duration, and error rate `#(status != "completed") / total` (0 on an empty
list rather than a division by zero). -/
def mkServiceStats (recent : List TraceInfo) : ServiceStats :=
  { total_calls := recent.length
    avg_duration :=
      if recent.isEmpty then 0
      else (recent.map TraceInfo.duration_ms).sum / (recent.length : ℚ)
    error_rate :=
      if recent.isEmpty then 0
      else ((recent.filter (fun t => t.status ≠ "completed")).length : ℚ) /
        (recent.length : ℚ) }

/-- The collection loop of `analyze_mcp_interactions`: filters each service's
trace history by the window (propagating a raised `KeyError`), extends
`all_traces` and records the per-service stats. -/
def collectRecentTraces (cutoff : ℚ) :
    List (String × List TraceInfo) →
      Except String (List TraceInfo × List (String × ServiceStats))
  | [] => .ok ([], [])
  | (svc, traces) :: rest =>
      match filterRecentTraces cutoff traces with
      | .error e => .error e
      | .ok recent =>
          match collectRecentTraces cutoff rest with
          | .error e => .error e
          | .ok (allTraces, stats) =>
              .ok (recent ++ allTraces, (svc, mkServiceStats recent) :: stats)

/-- `_analyze_error_patterns`: errors are the traces whose status differs from
"completed"; the rate divides by the total (0 when there are no traces). -/
structure ErrorPatterns where
  total_errors : Nat
  error_rate : ℚ
deriving DecidableEq

def analyzeErrorPatterns (traces : List TraceInfo) : ErrorPatterns :=
  let errors := traces.filter (fun t => t.status ≠ "completed")
  { total_errors := errors.length
    error_rate :=
      if traces.isEmpty then 0
      else (errors.length : ℚ) / (traces.length : ℚ) }

/-- `_find_slowest_operations`: the five longest traces by duration. -/
def findSlowestOperations (traces : List TraceInfo) : List TraceInfo :=
  (traces.mergeSort (fun a b => b.duration_ms ≤ a.duration_ms)).take 5

/-- The `patterns` block computed on the success path of
`analyze_mcp_interactions`. The peak-hour block performs the same
`trace["timestamp"]` dynamic access, so it is `Except`-valued as well. -/
structure InteractionPatterns where
  total_interactions : Nat
  unique_services : Nat
  peak_hours : Except String (List Nat)
  slowest_operations : List TraceInfo
  error_patterns : ErrorPatterns
  service_comparison : List (String × ServiceStats)

/-- Return value of `analyze_mcp_interactions` when no exception is raised:
the `{"error": "No interaction data available for the specified period"}`
dict, or the analysis bundle. -/
inductive AnalysisOutcome where
  | noData (error : String)
  | success (patterns : InteractionPatterns)

/-- The `trace["timestamp"]` reads performed by `_find_peak_usage_hours` over
the stored trace dicts; a record lacking the key raises `KeyError`. -/
def extractTimestamps : List TraceInfo → Except String (List ℚ)
  | [] => .ok []
  | t :: rest =>
      match t.dictGet "timestamp" with
      | some (.num ts) =>
          match extractTimestamps rest with
          | .error e => .error e
          | .ok tail => .ok (ts :: tail)
      | some _ => .error "TypeError: fromisoformat"
      | none => .error "KeyError: timestamp"

/-- `_find_peak_usage_hours` applied to stored trace dicts. -/
def findPeakUsageHoursDict (traces : List TraceInfo) : Except String (List Nat) :=
  match extractTimestamps traces with
  | .error e => .error e
  | .ok tss => .ok (findPeakUsageHours tss)

/-- `analyze_mcp_interactions`: unions the windowed trace history of every
service, returns the structured no-data error when the union is empty, and
otherwise the pattern bundle. A `KeyError` raised while filtering propagates
to the caller as the `Except.error` branch. -/
def analyzeMcpInteractions (days : Nat) (now : ℚ) (store : Store) :
    Except String AnalysisOutcome :=
  let cutoff := now - days * secondsPerDay
  match collectRecentTraces cutoff store.traceHistory with
  | .error e => .error e
  | .ok (allTraces, serviceStats) =>
      if allTraces.isEmpty then
        .ok (.noData "No interaction data available for the specified period")
      else
        .ok (.success
          { total_interactions := allTraces.length
            unique_services := serviceStats.length
            peak_hours := findPeakUsageHoursDict allTraces
            slowest_operations := findSlowestOperations allTraces
            error_patterns := analyzeErrorPatterns allTraces
            service_comparison := serviceStats })

/-! ## Claims about the report generator and the interaction analyzer -/

/-- A store whose only performance history holds one sample taken at epoch
second 0, thirty days before the analysis time `2592000`. -/
def stalePerfStore : Store :=
  { performanceHistory :=
      [("svc", [{ cpu_percent := 50, memory_mb := 100, timestamp := 0 }])] }

/-- A store whose only trace history was populated by one `trace_mcp_calls`
invocation at epoch second 0, thirty days before the analysis time. -/
def staleTraceStore : Store :=
  { traceHistory :=
      [("svc", (traceMcpCalls ("t1") ("op") ("svc") 10 none 0 []).2)] }

/-- Claim C6 is violated by the code on its `analyze_mcp_interactions` half.
With one stored performance sample outside the 7-day window,
`generate_performance_reports` does return the structured no-data error (both
for a named service and for the all-services path), as claimed. But with one
stored trace outside the window, `analyze_mcp_interactions` raises
`KeyError: timestamp` while filtering — the stored trace dict keys the field
as "start_time" — instead of returning the no-data result. -/
theorem nodata_window_behavior :
    generatePerformanceReports (some ("svc")) 7 2592000 stalePerfStore =
      .noData "No performance data available for the specified period" ∧
    generatePerformanceReports none 7 2592000 stalePerfStore =
      .noData "No performance data available for the specified period" ∧
    analyzeMcpInteractions 7 2592000 staleTraceStore =
      .error "KeyError: timestamp" := by
  refine ⟨?_, ?_, ?_⟩
  · norm_num [generatePerformanceReports, stalePerfStore, lookupHistory,
      secondsPerDay]
  · norm_num [generatePerformanceReports, stalePerfStore, secondsPerDay]
  · simp [analyzeMcpInteractions, staleTraceStore, collectRecentTraces,
      filterRecentTraces, TraceInfo.dictGet, traceMcpCalls, appendCapped,
      lastN, secondsPerDay]

/-- A store whose trace history was populated by one `trace_mcp_calls`
invocation at epoch second 2591000, inside the 7-day window ending at
2592000. -/
def recordedTraceStore : Store :=
  { traceHistory :=
      [("svc", (traceMcpCalls ("t1") ("op") ("svc") 10 none 2591000 []).2)] }

/-- Claim C7 is violated by the code: the trace recorded by
`trace_mcp_calls` starts inside the day-count window (first conjunct), yet
`analyze_mcp_interactions` over that window does not include it in any
statistic — it raises `KeyError: timestamp`, because the recorder stores the
start time under the dict key "start_time" while the analyzer reads
`trace["timestamp"]`. -/
theorem trace_roundtrip_keyerror :
    (2592000 - 7 * secondsPerDay <
      (traceMcpCalls ("t1") ("op") ("svc") 10 none 2591000 []).1.start_time) ∧
    analyzeMcpInteractions 7 2592000 recordedTraceStore =
      .error "KeyError: timestamp" := by
  constructor
  · show (2592000 : ℚ) - 7 * secondsPerDay < 2591000
    norm_num [secondsPerDay]
  · simp [analyzeMcpInteractions, recordedTraceStore, collectRecentTraces,
      filterRecentTraces, TraceInfo.dictGet, traceMcpCalls, appendCapped,
      lastN, secondsPerDay]

/-- Claim C10: every trace record created by `trace_mcp_calls` has status
"completed", the capped append keeps a history of all-"completed" records
all-"completed", and over any such history the analyzer computes zero errors
and an error rate of exactly 0 — both in `_analyze_error_patterns` and in the
per-service stats. -/
theorem completed_traces_zero_errors :
    (∀ (traceId operationName serviceName : String) (durationMs : ℚ)
        (attributes : Option (List (String × String))) (now : ℚ)
        (prior : List TraceInfo),
      (traceMcpCalls traceId operationName serviceName durationMs attributes
          now prior).1.status = "completed" ∧
      ((∀ t ∈ prior, t.status = "completed") →
        ∀ t ∈ (traceMcpCalls traceId operationName serviceName durationMs
            attributes now prior).2, t.status = "completed")) ∧
    (∀ history : List TraceInfo, (∀ t ∈ history, t.status = "completed") →
      analyzeErrorPatterns history = { total_errors := 0, error_rate := 0 } ∧
      (mkServiceStats history).error_rate = 0) := by
  constructor
  · intro traceId operationName serviceName durationMs attributes now prior
    refine ⟨rfl, fun hall t ht => ?_⟩
    simp only [traceMcpCalls, appendCapped, lastN] at ht
    have hmem := List.drop_subset _ _ ht
    rcases List.mem_append.mp hmem with hp | hnew
    · exact hall t hp
    · rw [List.mem_singleton.mp hnew]
  · intro history hall
    have hfilter : history.filter (fun t => t.status ≠ "completed") = [] := by
      rw [List.filter_eq_nil_iff]
      intro t ht
      simp [hall t ht]
    constructor
    · unfold analyzeErrorPatterns
      rw [hfilter]
      by_cases hemp : history.isEmpty <;> simp [hemp]
    · unfold mkServiceStats
      rw [hfilter]
      by_cases hemp : history.isEmpty <;> simp [hemp]

/-- Concrete instance of C10: a single recorded trace has status "completed"
and the history holding just that record analyzes to zero errors and error
rate 0. -/
theorem completed_traces_zero_errors_witness :
    (traceMcpCalls ("t1") ("op") ("svc") 10 none 0 []).1.status = "completed" ∧
    analyzeErrorPatterns [(traceMcpCalls ("t1") ("op") ("svc") 10 none 0 []).1] =
      { total_errors := 0, error_rate := 0 } :=
  ⟨(completed_traces_zero_errors.1 ("t1") ("op") ("svc") 10 none 0 []).1,
   (completed_traces_zero_errors.2
      [(traceMcpCalls ("t1") ("op") ("svc") 10 none 0 []).1]
      (by intro t ht; rw [List.mem_singleton.mp ht]; rfl)).1⟩

/-! ## Properties of the peak-hour computation -/

/-- `hours.get(k, 0)`: the tallied count of `k`. -/
def tcount : List (Nat × Nat) → Nat → Nat
  | [], _ => 0
  | (k, c) :: rest, h => if k = h then c else tcount rest h

theorem tcount_bump (assoc : List (Nat × Nat)) (h k : Nat) :
    tcount (bump assoc h) k =
      if k = h then tcount assoc k + 1 else tcount assoc k := by
  induction assoc with
  | nil =>
      by_cases hk : k = h
      · subst hk
        simp [bump, tcount]
      · simp [bump, tcount, hk, Ne.symm hk]
  | cons p rest ih =>
      obtain ⟨a, c⟩ := p
      by_cases hah : a = h
      · subst hah
        by_cases hk : k = a
        · subst hk
          simp [bump, tcount]
        · simp [bump, tcount, hk, Ne.symm hk]
      · by_cases hk : k = a
        · subst hk
          simp [bump, tcount, hah, Ne.symm hah]
        · simp [bump, tcount, hah, hk, Ne.symm hk, ih]

theorem tcount_foldl_bump (hs : List Nat) :
    ∀ (acc : List (Nat × Nat)) (k : Nat),
      tcount (hs.foldl bump acc) k = tcount acc k + hs.count k := by
  induction hs with
  | nil => intro acc k; simp
  | cons h rest ih =>
      intro acc k
      rw [List.foldl_cons, ih (bump acc h) k, tcount_bump]
      by_cases hk : k = h <;> simp [List.count_cons, hk] <;> omega

theorem keys_bump (assoc : List (Nat × Nat)) (h : Nat) :
    (bump assoc h).map Prod.fst =
      if h ∈ assoc.map Prod.fst then assoc.map Prod.fst
      else assoc.map Prod.fst ++ [h] := by
  induction assoc with
  | nil => simp [bump]
  | cons p rest ih =>
      obtain ⟨a, c⟩ := p
      by_cases hah : a = h
      · subst hah
        simp [bump]
      · by_cases hmem : h ∈ rest.map Prod.fst <;>
          simp [bump, hah, Ne.symm hah, hmem, ih]

theorem nodup_keys_bump (assoc : List (Nat × Nat)) (h : Nat)
    (hnd : (assoc.map Prod.fst).Nodup) : ((bump assoc h).map Prod.fst).Nodup := by
  rw [keys_bump]
  by_cases hmem : h ∈ assoc.map Prod.fst
  · simpa [hmem] using hnd
  · simp [hmem, List.nodup_append, hnd]

theorem nodup_keys_foldl_bump (hs : List Nat) :
    ∀ acc : List (Nat × Nat), (acc.map Prod.fst).Nodup →
      ((hs.foldl bump acc).map Prod.fst).Nodup := by
  induction hs with
  | nil => intro acc hnd; simpa using hnd
  | cons h rest ih =>
      intro acc hnd
      rw [List.foldl_cons]
      exact ih (bump acc h) (nodup_keys_bump acc h hnd)

theorem tcount_of_mem (assoc : List (Nat × Nat))
    (hnd : (assoc.map Prod.fst).Nodup) (p : Nat × Nat) (hp : p ∈ assoc) :
    tcount assoc p.1 = p.2 := by
  induction assoc with
  | nil => cases hp
  | cons q rest ih =>
      obtain ⟨a, c⟩ := q
      rw [List.map_cons] at hnd
      have hpair := List.nodup_cons.mp hnd
      rcases List.mem_cons.mp hp with hq | hrest
      · subst hq
        simp [tcount]
      · have ha : p.1 ≠ a := by
          intro hcontra
          exact hpair.1 (List.mem_map.mpr ⟨p, hrest, hcontra⟩)
        show (if a = p.1 then c else tcount rest p.1) = p.2
        rw [if_neg (Ne.symm ha)]
        exact ih hpair.2 hrest

/-- Every tally entry records exactly the number of occurrences of its hour
in the input sequence. -/
theorem mem_tallyHours_count (hs : List Nat) (p : Nat × Nat)
    (hp : p ∈ tallyHours hs) : p.2 = hs.count p.1 := by
  have hnd : ((tallyHours hs).map Prod.fst).Nodup :=
    nodup_keys_foldl_bump hs [] (by simp)
  have h1 : tcount (tallyHours hs) p.1 = p.2 := tcount_of_mem _ hnd p hp
  have h2 : tcount (tallyHours hs) p.1 = tcount [] p.1 + hs.count p.1 :=
    tcount_foldl_bump hs [] p.1
  simp [tcount] at h2
  omega

theorem mem_insertByCountDesc (p a : Nat × Nat) (S : List (Nat × Nat)) :
    a ∈ insertByCountDesc p S ↔ a = p ∨ a ∈ S := by
  induction S with
  | nil => simp [insertByCountDesc]
  | cons q rest ih =>
      by_cases hpq : p.2 < q.2
      · simp [insertByCountDesc, hpq, ih]
        tauto
      · simp [insertByCountDesc, hpq]

theorem head?_insertByCountDesc (p : Nat × Nat) (S : List (Nat × Nat)) :
    (insertByCountDesc p S).head? = some p ∨
      (insertByCountDesc p S).head? = S.head? := by
  cases S with
  | nil => left; rfl
  | cons q rest =>
      by_cases hpq : p.2 < q.2
      · right; simp [insertByCountDesc, hpq]
      · left; simp [insertByCountDesc, hpq]

theorem chain'_insertByCountDesc (p : Nat × Nat) (S : List (Nat × Nat))
    (hS : S.Chain' (fun a b => b.2 ≤ a.2)) :
    (insertByCountDesc p S).Chain' (fun a b => b.2 ≤ a.2) := by
  induction S with
  | nil => simp [insertByCountDesc]
  | cons q rest ih =>
      rw [List.chain'_cons'] at hS
      by_cases hpq : p.2 < q.2
      · rw [insertByCountDesc, if_pos hpq, List.chain'_cons']
        refine ⟨fun y hy => ?_, ih hS.2⟩
        rcases head?_insertByCountDesc p rest with hh | hh
        · rw [hh] at hy
          have hpy : p = y := by simpa using hy
          subst hpy
          exact le_of_lt hpq
        · rw [hh] at hy
          exact hS.1 y hy
      · rw [insertByCountDesc, if_neg hpq, List.chain'_cons']
        refine ⟨fun y hy => ?_, List.chain'_cons'.mpr hS⟩
        have hqy : q = y := by simpa using hy
        subst hqy
        exact not_lt.mp hpq

theorem chain'_sortByCountDesc (l : List (Nat × Nat)) :
    (sortByCountDesc l).Chain' (fun a b => b.2 ≤ a.2) := by
  induction l with
  | nil => simp [sortByCountDesc]
  | cons p rest ih => exact chain'_insertByCountDesc p _ ih

theorem mem_sortByCountDesc (a : Nat × Nat) (l : List (Nat × Nat)) :
    a ∈ sortByCountDesc l ↔ a ∈ l := by
  induction l with
  | nil => simp [sortByCountDesc]
  | cons p rest ih =>
      show a ∈ insertByCountDesc p (sortByCountDesc rest) ↔ _
      rw [mem_insertByCountDesc, ih]
      simp

theorem chain'_count_transfer (f : Nat → Nat) :
    ∀ S : List (Nat × Nat), S.Chain' (fun a b => b.2 ≤ a.2) →
      (∀ p ∈ S, p.2 = f p.1) → S.Chain' (fun a b => f b.1 ≤ f a.1)
  | [], _, _ => by simp
  | [_], _, _ => by simp
  | a :: b :: rest, h, hf => by
      rw [List.chain'_cons] at h ⊢
      refine ⟨?_, chain'_count_transfer f (b :: rest) h.2 ?_⟩
      · rw [← hf a (by simp), ← hf b (by simp)]
        exact h.1
      · intro p hp
        exact hf p (by simp [hp])

/-- On epoch-second timestamps lying exactly on hour `h`, the extracted hour
of day is `h % 24`. -/
theorem hourOf_hour_mul (h : Nat) : hourOf ((h : ℚ) * 3600) = h % 24 := by
  unfold hourOf
  have : ((h : ℚ) * 3600) / 3600 = (h : ℚ) := by
    field_simp
  rw [this, Int.floor_natCast, Int.toNat_natCast]

/-- The 24-trace input of the claim: one trace per hour of day, in
chronological order. -/
def evenSpreadTimestamps : List ℚ :=
  (List.range 24).map (fun (h : Nat) => (h : ℚ) * 3600)

theorem evenSpread_hours : evenSpreadTimestamps.map hourOf = List.range 24 := by
  unfold evenSpreadTimestamps
  rw [List.map_map]
  have hcong : ∀ h ∈ List.range 24,
      (hourOf ∘ fun (h : Nat) => (h : ℚ) * 3600) h = h := by
    intro h hh
    rw [Function.comp_apply, hourOf_hour_mul]
    exact Nat.mod_eq_of_lt (List.mem_range.mp hh)
  rw [List.map_congr_left hcong]
  exact List.map_id' _

/-- The two-trace tie input: one trace at hour 5, then one at hour 3. -/
def tieTimestamps : List ℚ :=
  [((5 : Nat) : ℚ) * 3600, ((3 : Nat) : ℚ) * 3600]

theorem tieTimestamps_hours : tieTimestamps.map hourOf = [5, 3] := by
  unfold tieTimestamps
  simp only [List.map_cons, List.map_nil, hourOf_hour_mul]

/-- Claim C9 as stated is false at a concrete input: on two traces at hours 5
and 3 (in that order) the two hours tie at one call each, yet the computation
returns `[5, 3]` — first-seen order — not the hour-ascending `[3, 5]` the
claim prescribes for ties. -/
theorem peak_hours_tiebreak_counterexample :
    (tieTimestamps.map hourOf).count 3 = (tieTimestamps.map hourOf).count 5 ∧
    findPeakUsageHours tieTimestamps = [5, 3] ∧
    findPeakUsageHours tieTimestamps ≠ [3, 5] := by
  refine ⟨?_, ?_, ?_⟩
  · rw [tieTimestamps_hours]
    decide
  · unfold findPeakUsageHours
    rw [tieTimestamps_hours]
    decide
  · unfold findPeakUsageHours
    rw [tieTimestamps_hours]
    decide

/-- Claim C9, amended: the peak-hour computation returns at most 3 hours,
ranked by call volume (occurrence counts along the result are
non-increasing), with ties broken by first-seen order of the hour in the
trace sequence rather than by ascending hour value; on 24 traces evenly
spread one per hour in chronological order it returns exactly `[0, 1, 2]`,
and on the tied hours 5-then-3 it returns `[5, 3]`. -/
theorem peak_hours_top3_ranked :
    (∀ timestamps : List ℚ, (findPeakUsageHours timestamps).length ≤ 3) ∧
    (∀ timestamps : List ℚ, (findPeakUsageHours timestamps).Chain'
      (fun a b => (timestamps.map hourOf).count b ≤ (timestamps.map hourOf).count a)) ∧
    findPeakUsageHours evenSpreadTimestamps = [0, 1, 2] ∧
    findPeakUsageHours tieTimestamps = [5, 3] := by
  refine ⟨?_, ?_, ?_, ?_⟩
  · intro timestamps
    unfold findPeakUsageHours
    exact List.length_take_le 3 _
  · intro timestamps
    unfold findPeakUsageHours
    set hs := timestamps.map hourOf with hhs
    have hsorted : (sortByCountDesc (tallyHours hs)).Chain'
        (fun a b => b.2 ≤ a.2) := chain'_sortByCountDesc _
    have hcounts : ∀ p ∈ sortByCountDesc (tallyHours hs), p.2 = hs.count p.1 := by
      intro p hp
      exact mem_tallyHours_count hs p ((mem_sortByCountDesc p _).mp hp)
    have hchain : (sortByCountDesc (tallyHours hs)).Chain'
        (fun a b => hs.count b.1 ≤ hs.count a.1) :=
      chain'_count_transfer (hs.count ·) _ hsorted hcounts
    have hmap : ((sortByCountDesc (tallyHours hs)).map Prod.fst).Chain'
        (fun a b => hs.count b ≤ hs.count a) :=
      (List.chain'_map Prod.fst).mpr hchain
    exact hmap.take 3
  · unfold findPeakUsageHours
    rw [evenSpread_hours]
    decide
  · unfold findPeakUsageHours
    rw [tieTimestamps_hours]
    decide

/-! ## Metrics export (`export_metrics`) -/

/-- `_collect_current_metrics` — a hardcoded placeholder dict. -/
def collectCurrentMetrics : List (String × String) :=
  [("current_metrics", "Would be collected from OpenTelemetry")]

/-- `_collect_recent_traces` — the body is `return []`. -/
def collectRecentTracesExport : List TraceInfo :=
  []

/-- A record stored under some `*_history:` key, as re-exported by the JSON
branch. -/
inductive StoredRecord where
  | health (h : HealthCheckResult)
  | perf (p : PerfSample)
  | traceRec (t : TraceInfo)
deriving DecidableEq

/-- A value of the JSON-like dict returned by `export_metrics`. -/
inductive JsonVal where
  | str (s : String)
  | time (t : ℚ)
  | metrics (m : List (String × String))
  | history (entries : List (String × List StoredRecord))
  | traces (ts : List TraceInfo)
  | null
deriving DecidableEq

/-- The storage keys containing `"_history:"`, with their contents. Note that
the bare `system_status_history` key contains no colon and therefore never
matches this filter in the code. -/
def historyKeyEntries (store : Store) : List (String × List StoredRecord) :=
  store.healthHistory.map
    (fun p => ("health_history:" ++ p.1, p.2.map StoredRecord.health)) ++
  store.performanceHistory.map
    (fun p => ("performance_history:" ++ p.1, p.2.map StoredRecord.perf)) ++
  store.traceHistory.map
    (fun p => ("trace_history:" ++ p.1, p.2.map StoredRecord.traceRec))

/-- The `export_data["history"]` block: the first 10 history keys, each
truncated to its last 100 entries. -/
def exportHistoryBlock (store : Store) : List (String × List StoredRecord) :=
  ((historyKeyEntries store).take 10).map (fun p => (p.1, lastN 100 p.2))

/-- `export_metrics`: dispatch on the requested format. The JSON branch
always carries "timestamp", "metrics" and "version" keys and appends a
"history" key only when `include_history` is set. -/
def exportMetrics (format : String) (includeHistory : Bool) (now : ℚ)
    (prometheusPort : String) (store : Store) : List (String × JsonVal) :=
  if format = "prometheus" then
    [("format", .str "prometheus"),
     ("endpoint", .str ("http://localhost:" ++ prometheusPort ++ "/metrics")),
     ("message", .str "Metrics available at Prometheus endpoint")]
  else if format = "opentelemetry" then
    [("format", .str "opentelemetry"),
     ("metrics", .metrics collectCurrentMetrics),
     ("traces", if includeHistory then .traces collectRecentTracesExport else .null)]
  else if format = "json" then
    [("timestamp", .time now),
     ("metrics", .metrics collectCurrentMetrics),
     ("version", .str "0.1.0")] ++
    (if includeHistory then [("history", .history (exportHistoryBlock store))] else [])
  else
    [("error", .str ("Unsupported format: " ++ format ++
      ". Supported: prometheus, opentelemetry, json"))]

/-- Key membership in an exported dict. -/
def dictHasKey (d : List (String × JsonVal)) (k : String) : Bool :=
  (d.map Prod.fst).contains k

/-- Claim C8: for every `export_metrics(format="json")` call the returned
structure contains a timestamp field and a version field, and whenever
`include_history` is false it contains no history block at all. -/
theorem export_json_fields (includeHistory : Bool) (now : ℚ)
    (prometheusPort : String) (store : Store) :
    dictHasKey (exportMetrics ("json") includeHistory now prometheusPort store)
      ("timestamp") = true ∧
    dictHasKey (exportMetrics ("json") includeHistory now prometheusPort store)
      ("version") = true ∧
    (includeHistory = false →
      dictHasKey (exportMetrics ("json") includeHistory now prometheusPort store)
        ("history") = false) := by
  cases includeHistory <;>
    simp [exportMetrics, dictHasKey]

/-- Concrete instance of C8: a JSON export without history over the empty
store has the timestamp and version keys and no history key. -/
theorem export_json_fields_witness :
    dictHasKey (exportMetrics ("json") false 0 ("9090") {}) ("timestamp") = true ∧
    dictHasKey (exportMetrics ("json") false 0 ("9090") {}) ("version") = true ∧
    (false = false →
      dictHasKey (exportMetrics ("json") false 0 ("9090") {}) ("history") = false) :=
  export_json_fields false 0 ("9090") {}

end ObservabilityMcp
